import Mathlib

/-!
Shallow embedding of `pkg/vlt/store/store.go` (package `store`) from the
`ladzaretti/pvlt` repository, together with theorems settling the frozen
claims about its specification.

The Go package is a persistence layer over SQLite.  We embed:
  * the pure string composition of SQL query text (`whereGlobOrClause`
    and the query literals), character-for-character;
  * the row aggregator `reduce`, with Go's `map[int]LabeledSecret`
    modelled as an association list keyed by first occurrence (the
    key-to-value mapping agrees with the Go map; entry order is
    first-seen order, which is immaterial since Go map order is
    unspecified);
  * the database engine's semantics for the exact queries the package
    emits: a tokenizer and parser for the composed SQL text (with SQL's
    operator precedence, `AND` binding tighter than `OR`), SQLite `GLOB`
    matching, and evaluation of the parsed filter over the rows of the
    `secrets JOIN labels` join;
  * the store operations as functions on an explicit database state.
-/

deriving instance DecidableEq for Except

namespace store

/-- A row of the `secrets` table: `secrets(id, name, secret)`. -/
structure SecretRow where
  id : Int
  name : String
  secret : String
  deriving DecidableEq

/-- A row of the `labels` table: `labels(name, secret_id)`. -/
structure LabelRow where
  name : String
  secretId : Int
  deriving DecidableEq

/-- The database state behind the `DBTX` handle: the singleton
`master_key` row (key of the row with `id = 0`, if present) and the
`secrets` and `labels` tables. -/
structure DB where
  masterKey : Option String
  secrets : List SecretRow
  labels : List LabelRow
  deriving DecidableEq

/-- Go `secretLabelRow`: a row resulting from the join between the
`secrets` and `labels` tables. -/
structure secretLabelRow where
  id : Int
  name : String
  label : String
  deriving DecidableEq

/-- Go `LabeledSecret`: a secret with some of its associated labels. -/
structure LabeledSecret where
  Name : String
  Labels : List String
  deriving DecidableEq

/-- The result mapping `map[int]LabeledSecret`, modelled as an
association list with at most one entry per key. -/
abbrev SecretMap := List (Int × LabeledSecret)

/-- Reading `m[k]` from the Go map: the value at the first (and only)
entry with key `k`. -/
def lookupEntry (m : SecretMap) (k : Int) : Option LabeledSecret :=
  match m with
  | [] => none
  | (k₀, v₀) :: rest => if k₀ = k then some v₀ else lookupEntry rest k

/-- Writing `m[k] = v` for a key already present: replace the value at
the entry with key `k`, leaving all other entries unchanged. -/
def updateEntry (m : SecretMap) (k : Int) (v : LabeledSecret) : SecretMap :=
  match m with
  | [] => []
  | (k₀, v₀) :: rest =>
      if k₀ = k then (k₀, v) :: rest else (k₀, v₀) :: updateEntry rest k v

/-- One iteration of the loop body of Go `reduce`: look up the row's id;
if absent, insert a fresh aggregate with the row's name and a
one-element label list; otherwise append the row's label. -/
def reduceStep (m : SecretMap) (s : secretLabelRow) : SecretMap :=
  match lookupEntry m s.id with
  | none => m ++ [(s.id, ⟨s.name, [s.label]⟩)]
  | some v => updateEntry m s.id ⟨v.Name, v.Labels ++ [s.label]⟩

/-- Go `reduce`: fold the flat join rows into the per-secret mapping. -/
def reduce (secrets : List secretLabelRow) : SecretMap :=
  secrets.foldl reduceStep []

/-! Section: SQLite GLOB matching

Semantics of the engine's `GLOB` operator (shell-style wildcards:
`*` any run, `?` any single character, `[...]` character class with
optional leading `^` negation and `a-b` ranges, case-sensitive). -/

/-- Scan a character-class body up to the closing `]`, collecting its
members as ranges (a single character `c` is the range `(c, c)`).  The
first character is a literal member even when it is `]`. -/
def classBody : Nat → List Char → Bool → List (Char × Char) →
    Option (List (Char × Char) × List Char)
  | 0, _, _, _ => none
  | _ + 1, [], _, _ => none
  | fuel + 1, c :: rest, first, acc =>
    if first = false ∧ c = ']' then some (acc, rest)
    else
      match rest with
      | '-' :: d :: rest2 =>
        if d = ']' then classBody fuel rest false ((c, c) :: acc)
        else classBody fuel rest2 false ((c, d) :: acc)
      | _ => classBody fuel rest false ((c, c) :: acc)

/-- Parse a character class (the part after `[`): optional `^`
negation, then the member ranges and the remaining pattern. -/
def classParse (l : List Char) : Option (Bool × List (Char × Char) × List Char) :=
  match l with
  | '^' :: rest =>
    match classBody (rest.length + 1) rest true [] with
    | none => none
    | some (rs, rest2) => some (true, rs, rest2)
  | _ =>
    match classBody (l.length + 1) l true [] with
    | none => none
    | some (rs, rest2) => some (false, rs, rest2)

/-- Membership of a character in a list of class ranges. -/
def charInRanges (c : Char) (ranges : List (Char × Char)) : Bool :=
  ranges.any fun r => decide (r.1 ≤ c) && decide (c ≤ r.2)

/-- Fuelled worker for GLOB matching; consumes at least one pattern or
subject character per step, so fuel `pattern.length + subject.length + 1`
is always enough. -/
def globMatchAux : Nat → List Char → List Char → Bool
  | 0, _, _ => false
  | _ + 1, [], s => s.isEmpty
  | fuel + 1, p :: ps, s =>
    if p = '*' then
      globMatchAux fuel ps s ||
        (match s with
         | [] => false
         | _ :: s2 => globMatchAux fuel (p :: ps) s2)
    else
      match s with
      | [] => false
      | c :: s2 =>
        if p = '?' then globMatchAux fuel ps s2
        else if p = '[' then
          match classParse ps with
          | none => false
          | some (neg, ranges, rest) =>
            (charInRanges c ranges != neg) && globMatchAux fuel rest s2
        else decide (p = c) && globMatchAux fuel ps s2

/-- `globMatch pat s` is true when the string `s` matches the glob
pattern `pat` under SQLite `GLOB` semantics. -/
def globMatch (pat s : String) : Bool :=
  globMatchAux (pat.length + s.length + 1) pat.data s.data

/-! Section: SQL tokenizer

The engine's tokenizer, restricted to what the composed queries can
contain.  Note that a `?` parameter marker ends at the first
non-numeric character, so the glued text `?AND` produced by
`SecretsByLabelsAndName` tokenizes as the marker `?` followed by the
keyword `AND`, exactly as SQLite reads it. -/

inductive Tok where
  | ident (s : String)
  | qmark
  | comma
  | lparen
  | rparen
  | eqTok
  deriving DecidableEq

/-- Characters that may occur in an (optionally qualified) identifier
or keyword. -/
def isIdentChar (c : Char) : Bool :=
  c.isAlpha || c.isDigit || c = '_' || c = '.'

/-- Fuelled tokenizer worker; every step consumes at least one
character. -/
def tokenizeAux : Nat → List Char → Option (List Tok)
  | 0, _ => none
  | _ + 1, [] => some []
  | fuel + 1, c :: rest =>
    if c = ' ' ∨ c = '\n' ∨ c = '\t' then tokenizeAux fuel rest
    else if c = '?' then (tokenizeAux fuel rest).map (Tok.qmark :: ·)
    else if c = ',' then (tokenizeAux fuel rest).map (Tok.comma :: ·)
    else if c = '(' then (tokenizeAux fuel rest).map (Tok.lparen :: ·)
    else if c = ')' then (tokenizeAux fuel rest).map (Tok.rparen :: ·)
    else if c = '=' then (tokenizeAux fuel rest).map (Tok.eqTok :: ·)
    else if isIdentChar c then
      (tokenizeAux fuel (rest.dropWhile isIdentChar)).map
        (Tok.ident (String.mk (c :: rest.takeWhile isIdentChar)) :: ·)
    else none

/-- Tokenize an SQL text. -/
def tokenize (s : String) : Option (List Tok) :=
  tokenizeAux (s.length + 1) s.data

/-! Section: Parsing the composed queries

All three search operations emit a `SELECT` over the same
`secrets s JOIN labels l ON s.id = l.secret_id` join, projecting
`s.id`, `s.name` (optionally aliased) and `l.name` (aliased), followed
by an optional `WHERE` filter.  The parser accepts exactly this shape
and parses the filter with SQL operator precedence: `AND` binds
tighter than `OR`, both left-associative.  `?` parameters are numbered
left to right in order of occurrence. -/

/-- The aliases (if any) of the three projected columns
`s.id`, `s.name`, `l.name`. -/
structure SelectInfo where
  alias1 : Option String
  alias2 : Option String
  alias3 : Option String
  deriving DecidableEq

/-- Parsed filter condition. -/
inductive Cond where
  | glob (col : String) (p : Nat)
  | inList (col : String) (ps : List Nat)
  | and (a b : Cond)
  | or (a b : Cond)
  deriving DecidableEq

/-- Parse one result column: an identifier with an optional
`AS alias`. -/
def parseSelCol : List Tok → Option (String × Option String × List Tok)
  | Tok.ident e :: Tok.ident kw :: Tok.ident a :: rest =>
    if kw = "AS" then some (e, some a, rest)
    else some (e, none, Tok.ident kw :: Tok.ident a :: rest)
  | Tok.ident e :: rest => some (e, none, rest)
  | _ => none

/-- Parse the `SELECT ... FROM secrets s JOIN labels l ON
s.id = l.secret_id` head shared by the three search queries, returning
the column aliases and the remaining tokens. -/
def parseJoinHead (ts : List Tok) : Option (SelectInfo × List Tok) :=
  match ts with
  | Tok.ident kwSel :: ts1 =>
    if kwSel = "SELECT" then
      match parseSelCol ts1 with
      | some (e1, a1, Tok.comma :: ts3) =>
        match parseSelCol ts3 with
        | some (e2, a2, Tok.comma :: ts5) =>
          match parseSelCol ts5 with
          | some (e3, a3, Tok.ident f :: Tok.ident t1 :: Tok.ident t1a ::
              Tok.ident j :: Tok.ident t2 :: Tok.ident t2a :: Tok.ident onKw ::
              Tok.ident c1 :: Tok.eqTok :: Tok.ident c2 :: rest) =>
            if f = "FROM" ∧ t1 = "secrets" ∧ t1a = "s" ∧ j = "JOIN" ∧
                t2 = "labels" ∧ t2a = "l" ∧ onKw = "ON" ∧ c1 = "s.id" ∧
                c2 = "l.secret_id" ∧ e1 = "s.id" ∧ e2 = "s.name" ∧ e3 = "l.name" then
              some (⟨a1, a2, a3⟩, rest)
            else none
          | _ => none
        | _ => none
      | _ => none
    else none
  | _ => none

/-- Parse a parenthesized `?` list after `IN (`, assigning parameter
indices in order; returns the indices, the remaining tokens and the
next free index. -/
def parseQmarkList : Nat → List Tok → Nat → Option (List Nat × List Tok × Nat)
  | 0, _, _ => none
  | _ + 1, Tok.qmark :: Tok.rparen :: rest, pc => some ([pc], rest, pc + 1)
  | fuel + 1, Tok.qmark :: Tok.comma :: rest, pc =>
    match parseQmarkList fuel rest (pc + 1) with
    | some (ps, rest2, pc2) => some (pc :: ps, rest2, pc2)
    | none => none
  | _, _, _ => none

/-- Parse an atomic condition: `col GLOB ?` or `col IN (?, ...)`. -/
def parseAtom (ts : List Tok) (pc : Nat) : Option (Cond × List Tok × Nat) :=
  match ts with
  | Tok.ident col :: Tok.ident op :: rest =>
    if op = "GLOB" then
      match rest with
      | Tok.qmark :: rest2 => some (Cond.glob col pc, rest2, pc + 1)
      | _ => none
    else if op = "IN" then
      match rest with
      | Tok.lparen :: rest2 =>
        match parseQmarkList (rest2.length + 1) rest2 pc with
        | some (ps, rest3, pc2) => some (Cond.inList col ps, rest3, pc2)
        | none => none
      | _ => none
    else none
  | _ => none

/-- Left-associative continuation of an `AND` chain. -/
def parseConjMore : Nat → Cond → List Tok → Nat → Option (Cond × List Tok × Nat)
  | 0, _, _, _ => none
  | fuel + 1, acc, ts, pc =>
    match ts with
    | Tok.ident kw :: rest =>
      if kw = "AND" then
        match parseAtom rest pc with
        | some (c, rest2, pc2) => parseConjMore fuel (Cond.and acc c) rest2 pc2
        | none => none
      else some (acc, ts, pc)
    | _ => some (acc, ts, pc)

/-- Parse an `AND` chain of atoms. -/
def parseConj (ts : List Tok) (pc : Nat) : Option (Cond × List Tok × Nat) :=
  match parseAtom ts pc with
  | some (c, rest, pc2) => parseConjMore (rest.length + 1) c rest pc2
  | none => none

/-- Left-associative continuation of an `OR` chain. -/
def parseDisjMore : Nat → Cond → List Tok → Nat → Option (Cond × List Tok × Nat)
  | 0, _, _, _ => none
  | fuel + 1, acc, ts, pc =>
    match ts with
    | Tok.ident kw :: rest =>
      if kw = "OR" then
        match parseConj rest pc with
        | some (c, rest2, pc2) => parseDisjMore fuel (Cond.or acc c) rest2 pc2
        | none => none
      else some (acc, ts, pc)
    | _ => some (acc, ts, pc)

/-- Parse an `OR` chain of `AND` chains — i.e. a full condition with
`AND` binding tighter than `OR`. -/
def parseDisj (ts : List Tok) (pc : Nat) : Option (Cond × List Tok × Nat) :=
  match parseConj ts pc with
  | some (c, rest, pc2) => parseDisjMore (rest.length + 1) c rest pc2
  | none => none

/-- Parse the tail of the query: either no `WHERE` clause (match all
rows), or `WHERE` followed by a condition consuming every remaining
token. -/
def parseWhereToks (ts : List Tok) : Option (Option Cond) :=
  match ts with
  | [] => some none
  | Tok.ident kw :: rest =>
    if kw = "WHERE" then
      match parseDisj rest 0 with
      | some (c, [], _) => some (some c)
      | _ => none
    else none
  | _ => none

/-! Section: Evaluating a parsed query over the database state -/

/-- An SQL value: the bound parameters are either integers (ids) or
text (patterns and names). -/
inductive Value where
  | int (i : Int)
  | str (s : String)
  deriving DecidableEq

/-- The values of the projected columns a reference `r` can resolve to
for a given join row: a reference names a column by its expression
(`s.id`, `s.name`, `l.name`) or by its alias. -/
def colMatches (si : SelectInfo) (r : String) (row : secretLabelRow) : List Value :=
  (if r = "s.id" ∨ si.alias1 = some r then [Value.int row.id] else []) ++
  (if r = "s.name" ∨ si.alias2 = some r then [Value.str row.name] else []) ++
  (if r = "l.name" ∨ si.alias3 = some r then [Value.str row.label] else [])

/-- Resolve a column reference; fails when the reference is unknown or
ambiguous. -/
def resolveCol (si : SelectInfo) (r : String) (row : secretLabelRow) : Option Value :=
  match colMatches si r row with
  | [v] => some v
  | _ => none

/-- Evaluate a condition on one join row with the given bound
parameters; `none` signals an engine error (unknown column, missing
parameter, type mismatch). -/
def evalCond (si : SelectInfo) (params : List Value) (row : secretLabelRow) :
    Cond → Option Bool
  | Cond.glob col p =>
    match resolveCol si col row, params[p]? with
    | some (Value.str s), some (Value.str pat) => some (globMatch pat s)
    | _, _ => none
  | Cond.inList col ps =>
    match resolveCol si col row with
    | some v =>
      match ps.mapM (fun p => params[p]?) with
      | some vs => some (vs.contains v)
      | none => none
    | none => none
  | Cond.and a b =>
    match evalCond si params row a with
    | some false => some false
    | some true => evalCond si params row b
    | none => none
  | Cond.or a b =>
    match evalCond si params row a with
    | some true => some true
    | some false => evalCond si params row b
    | none => none

/-- Error-propagating filter: keeps the rows on which `f` returns
`some true`, fails when `f` fails on any row. -/
def filterOpt (f : α → Option Bool) : List α → Option (List α)
  | [] => some []
  | a :: l =>
    match f a, filterOpt f l with
    | some b, some r => some (if b then a :: r else r)
    | _, _ => none

/-- The rows contributed to the join by a list of secrets: for each
secret, one row per label owned by it. -/
def joinRowsAux (labels : List LabelRow) (secrets : List SecretRow) :
    List secretLabelRow :=
  secrets.flatMap fun s =>
    (labels.filter fun l => decide (l.secretId = s.id)).map fun l =>
      ⟨s.id, s.name, l.name⟩

/-- The rows of `secrets s JOIN labels l ON s.id = l.secret_id`,
projected to `(s.id, s.name, l.name)`. -/
def joinRows (db : DB) : List secretLabelRow :=
  joinRowsAux db.labels db.secrets

/-- Parse a composed query text: tokenize, parse the join head, then
the optional `WHERE` filter. -/
def parseJoinQuery (q : String) : Option (SelectInfo × Option Cond) :=
  match tokenize q with
  | none => none
  | some toks =>
    match parseJoinHead toks with
    | none => none
    | some (si, rest) =>
      match parseWhereToks rest with
      | none => none
      | some mc => some (si, mc)

/-- Execute a composed query text with bound parameters against the
database state: parse it and keep the join rows satisfying the filter
(all rows when there is no `WHERE` clause).  `none` signals an engine
error. -/
def runJoinQuery (db : DB) (q : String) (params : List Value) :
    Option (List secretLabelRow) :=
  match parseJoinQuery q with
  | none => none
  | some (_, none) => some (joinRows db)
  | some (si, some c) => filterOpt (fun r => evalCond si params r c) (joinRows db)

/-! Section: Query text composition

Character-for-character transcriptions of the raw string literals in
`store.go` and of the string concatenations performed by the search
operations. -/

/-- Go `strings.Join`: concatenate the elements with the separator
between consecutive elements. -/
def stringsJoin (sep : String) : List String → String
  | [] => ""
  | [x] => x
  | x :: y :: xs => x ++ sep ++ stringsJoin sep (y :: xs)

/-- Go `whereGlobOrClause`: `WHERE col GLOB ? OR col GLOB ? ...` with
one clause per pattern, or the empty string when no patterns are
given. -/
def whereGlobOrClause (col : String) (patterns : List String) : String :=
  if patterns.length = 0 then ""
  else "WHERE " ++ stringsJoin " OR " (patterns.map fun _ => col ++ " GLOB ?")

/-- The raw-string head of the `SecretsByColumn` and
`SecretsByLabelsAndName` queries. -/
def selectJoinHead : String :=
  "\n\tSELECT\n\t\ts.id,\n\t\ts.name AS secret_name,\n\t\tl.name AS label\n\tFROM\n\t\tsecrets s\n\t\tJOIN labels l ON s.id = l.secret_id\n\t"

/-- The raw-string head of the `SecretsByIDs` query, up to the opening
parenthesis of the `IN` list. -/
def selectJoinHeadByIDs : String :=
  "\n\tSELECT\n\t\ts.id,\n\t\ts.name,\n\t\tl.name AS label\n\tFROM\n\t\tsecrets s\n\t\tJOIN labels l ON s.id = l.secret_id\n\tWHERE\n\t\ts.id IN ("

/-- The query text composed by `SecretsByColumn`. -/
def secretsByColumnQuery (col : String) (patterns : List String) : String :=
  selectJoinHead ++ whereGlobOrClause col patterns

/-- The query text composed by `SecretsByIDs`: one `?` placeholder per
id, joined by commas inside the `IN` list. -/
def secretsByIDsQuery (ids : List Int) : String :=
  selectJoinHeadByIDs ++ stringsJoin "," (ids.map fun _ => "?") ++ ")"

/-- The query text composed by `SecretsByLabelsAndName`; note the
direct concatenation producing `... GLOB ?AND secret_name GLOB ?`. -/
def secretsByLabelsAndNameQuery (labels : List String) : String :=
  selectJoinHead ++ whereGlobOrClause "label" labels ++ "AND secret_name GLOB ?"

/-! Section: Store operations -/

/-- The error outcomes of a store operation: the two sentinel
precondition errors declared in `store.go`, the driver's no-rows
signal, and any other engine failure. -/
inductive StoreErr where
  | ErrNoLabelsProvided
  | ErrNoIDsProvided
  | errNoRows
  | engineFailure
  deriving DecidableEq

/-- Go `cmdutil.ToAnySlice` on a pattern list: the patterns, in order,
as bound text parameters. -/
def toAnySliceStr (xs : List String) : List Value :=
  xs.map Value.str

/-- Go `cmdutil.ToAnySlice` on an id list: the ids, in order, as bound
integer parameters. -/
def toAnySliceInt (xs : List Int) : List Value :=
  xs.map Value.int

/-- Go `secretsJoinLabels`: execute the composed query and fold the
resulting rows with `reduce`. -/
def secretsJoinLabels (db : DB) (query : String) (args : List Value) :
    Except StoreErr SecretMap :=
  match runJoinQuery db query args with
  | none => Except.error StoreErr.engineFailure
  | some rows => Except.ok (reduce rows)

/-- Go `SecretsByColumn`: secrets with labels matching any of the glob
patterns on the given column; with no patterns, no `WHERE` clause is
emitted. -/
def SecretsByColumn (db : DB) (col : String) (patterns : List String) :
    Except StoreErr SecretMap :=
  secretsJoinLabels db (secretsByColumnQuery col patterns) (toAnySliceStr patterns)

/-- Go `SecretsByIDs`: secrets and labels for the given ids; the empty
id list short-circuits with `ErrNoIDsProvided` before any query is
composed or executed. -/
def SecretsByIDs (db : DB) (ids : List Int) : Except StoreErr SecretMap :=
  if ids.length = 0 then Except.error StoreErr.ErrNoIDsProvided
  else secretsJoinLabels db (secretsByIDsQuery ids) (toAnySliceInt ids)

/-- Go `SecretsByLabelsAndName`: the empty label list short-circuits
with `ErrNoLabelsProvided`; otherwise the label glob clause is
concatenated with `AND secret_name GLOB ?` and the parameters are the
labels followed by the name pattern. -/
def SecretsByLabelsAndName (db : DB) (name : String) (labels : List String) :
    Except StoreErr SecretMap :=
  if labels.length = 0 then Except.error StoreErr.ErrNoLabelsProvided
  else
    secretsJoinLabels db (secretsByLabelsAndNameQuery labels)
      (toAnySliceStr labels ++ [Value.str name])

/-- Go `InsertMasterKey`: `INSERT INTO master_key (id, key) VALUES
(0, $1) ON CONFLICT (id) DO NOTHING` — inserts the singleton row when
absent and is a silent no-op when it exists. -/
def InsertMasterKey (db : DB) (key : String) : DB :=
  match db.masterKey with
  | none => { db with masterKey := some key }
  | some _ => db

/-- Go `QueryMasterKey`: `SELECT key FROM master_key WHERE id = 0`;
the driver's no-rows signal when the singleton row is absent. -/
def QueryMasterKey (db : DB) : Except StoreErr String :=
  match db.masterKey with
  | some k => Except.ok k
  | none => Except.error StoreErr.errNoRows

/-! Section: The row-scan loop of `secretsJoinLabels`

The loop body of `secretsJoinLabels` (lines 262–276 of `store.go`)
with the driver's per-row decode outcomes and the final `rows.Err()`
made explicit: each `rows.Scan` either yields a row or fails with an
error, and the iteration itself may end in an error. -/

/-- The `for rows.Next()` loop: collect decoded rows in order, failing
at the first decode error. -/
def scanRowsLoop : List (Except String secretLabelRow) → List secretLabelRow →
    Except String (List secretLabelRow)
  | [], acc => Except.ok acc
  | Except.error e :: _, _ => Except.error e
  | Except.ok r :: rest, acc => scanRowsLoop rest (acc ++ [r])

/-- `secretsJoinLabels` after the query has produced a row stream:
scan every row, check `rows.Err()`, and only then reduce — a decode or
iteration error yields an error (the Go function returns `nil, err`)
and never a partial mapping. -/
def secretsJoinLabelsScan (scans : List (Except String secretLabelRow))
    (iterErr : Option String) : Except String SecretMap :=
  match scanRowsLoop scans [] with
  | Except.error e => Except.error e
  | Except.ok rows =>
    match iterErr with
    | some e => Except.error e
    | none => Except.ok (reduce rows)

/-! Section: The store handle and `WithTx` -/

/-- The database handle a `Store` is bound to: the ambient connection
or a transaction, identified abstractly. -/
inductive Handle where
  | conn (id : Nat)
  | tx (id : Nat)
  deriving DecidableEq

/-- Go `Store`: a record holding the `DBTX` handle its operations run
against. -/
structure Store where
  db : Handle
  deriving DecidableEq

/-- Go `WithTx`: the method body constructs and returns a fresh
`Store` bound to the transaction and never writes the receiver, so the
result pairs the receiver's (unchanged) state after the call with the
returned store. -/
def Store.WithTx (s : Store) (t : Nat) : Store × Store :=
  (s, { db := Handle.tx t })

/-! Section: Specification-side helpers and concrete example states -/

/-- The labels carried by the rows of a given id, in arrival order. -/
def labelsOf (rows : List secretLabelRow) (k : Int) : List String :=
  (rows.filter fun r => decide (r.id = k)).map fun r => r.label

/-- Total number of labels across all entries of the mapping. -/
def sumLabels (m : SecretMap) : Nat :=
  (m.map fun e => e.2.Labels.length).sum

/-- Example state: secret 1 `mail` labelled `work`, secret 2 `github`
labelled `home`. -/
def dbTwoSecrets : DB :=
  ⟨none, [⟨1, "mail", "p"⟩, ⟨2, "github", "q"⟩], [⟨"work", 1⟩, ⟨"home", 2⟩]⟩

/-- Example state: one secret with no labels at all. -/
def dbNoLabels : DB :=
  ⟨none, [⟨1, "a", "p"⟩], []⟩

/-- Example state from the spec's OR-semantics test: secrets A, B, C
labelled `work`, `personal`, `home` respectively. -/
def dbThreeSecrets : DB :=
  ⟨none, [⟨1, "A", "x"⟩, ⟨2, "B", "y"⟩, ⟨3, "C", "z"⟩],
    [⟨"work", 1⟩, ⟨"personal", 2⟩, ⟨"home", 3⟩]⟩

/-- The empty database state. -/
def emptyDB : DB := ⟨none, [], []⟩

/-- Example row sequence from the spec's aggregation-ordering test. -/
def rowsExample : List secretLabelRow :=
  [⟨1, "a", "L1"⟩, ⟨1, "a", "L2"⟩, ⟨2, "b", "L1"⟩]

/-! Section: Lemmas about the aggregator -/

theorem labelsOf_nil (k : Int) : labelsOf [] k = [] := rfl

theorem labelsOf_cons (r : secretLabelRow) (rows : List secretLabelRow) (k : Int) :
    labelsOf (r :: rows) k =
      if r.id = k then r.label :: labelsOf rows k else labelsOf rows k := by
  by_cases h : r.id = k <;> simp [labelsOf, List.filter_cons, h]

theorem lookupEntry_append (m : SecretMap) (e : Int × LabeledSecret) (k : Int) :
    lookupEntry (m ++ [e]) k =
      (lookupEntry m k).or (if e.1 = k then some e.2 else none) := by
  induction m with
  | nil => cases e with | mk k₀ v₀ => by_cases h : k₀ = k <;> simp [lookupEntry, h]
  | cons hd tl ih =>
    cases hd with
    | mk k₀ v₀ => by_cases h : k₀ = k <;> simp [lookupEntry, h, ih]

theorem lookupEntry_updateEntry (m : SecretMap) (k : Int) (v : LabeledSecret)
    (k' : Int) :
    lookupEntry (updateEntry m k v) k' =
      if k' = k then (lookupEntry m k).map fun _ => v else lookupEntry m k' := by
  induction m with
  | nil => by_cases h : k' = k <;> simp [lookupEntry, updateEntry, h]
  | cons hd tl ih =>
    cases hd with
    | mk k₀ v₀ =>
      simp only [updateEntry]
      by_cases h0 : k₀ = k
      · subst h0
        simp only [if_pos rfl]
        by_cases h1 : k₀ = k'
        · subst h1
          simp [lookupEntry]
        · have h2 : ¬k' = k₀ := fun hh => h1 hh.symm
          simp [lookupEntry, h1, h2]
      · simp only [if_neg h0]
        by_cases h1 : k₀ = k'
        · subst h1
          have h2 : ¬k₀ = k := h0
          simp [lookupEntry, h2]
        · simp [lookupEntry, h0, h1, ih]

/-- Invariant of the aggregation loop: after folding `rows` into an
accumulator, the entry at `k` extends the accumulator's entry (if any)
with the labels of `k`'s rows; otherwise it is created from the first
row carrying `k`. -/
theorem foldl_reduceStep_lookup (rows : List secretLabelRow) (acc : SecretMap)
    (k : Int) :
    lookupEntry (rows.foldl reduceStep acc) k =
      match lookupEntry acc k with
      | some v => some ⟨v.Name, v.Labels ++ labelsOf rows k⟩
      | none =>
        match rows.find? (fun r => decide (r.id = k)) with
        | none => none
        | some r => some ⟨r.name, labelsOf rows k⟩ := by
  induction rows generalizing acc with
  | nil =>
    cases h : lookupEntry acc k <;> simp [labelsOf_nil, h]
  | cons r rest ih =>
    rw [List.foldl_cons, ih]
    by_cases hk : r.id = k
    · cases hacc : lookupEntry acc k with
      | none =>
        have hlk : lookupEntry acc r.id = none := by rw [hk]; exact hacc
        have hstep : lookupEntry (reduceStep acc r) k = some ⟨r.name, [r.label]⟩ := by
          simp [reduceStep, hlk, lookupEntry_append, hacc, hk]
        rw [hstep]
        simp [List.find?, hk, labelsOf_cons, hacc]
      | some v =>
        have hlk : lookupEntry acc r.id = some v := by rw [hk]; exact hacc
        have hstep : lookupEntry (reduceStep acc r) k =
            some ⟨v.Name, v.Labels ++ [r.label]⟩ := by
          simp [reduceStep, hlk, hacc, lookupEntry_updateEntry, hk]
        rw [hstep]
        simp [labelsOf_cons, hk, hacc]
    · have hstep : lookupEntry (reduceStep acc r) k = lookupEntry acc k := by
        cases hlk : lookupEntry acc r.id with
        | none => simp [reduceStep, hlk, lookupEntry_append, hk]
        | some v =>
          have hk2 : ¬k = r.id := fun hh => hk hh.symm
          simp [reduceStep, hlk, lookupEntry_updateEntry, hk2]
      rw [hstep]
      simp [List.find?, hk, labelsOf_cons]

/-- Characterization of `reduce`: the mapping has an entry for `k`
exactly when some row carries `k`; its name is the first such row's
name and its labels are the labels of `k`'s rows in arrival order. -/
theorem lookupEntry_reduce (rows : List secretLabelRow) (k : Int) :
    lookupEntry (reduce rows) k =
      match rows.find? (fun r => decide (r.id = k)) with
      | none => none
      | some r => some ⟨r.name, labelsOf rows k⟩ := by
  have h := foldl_reduceStep_lookup rows [] k
  simpa [reduce, lookupEntry] using h

theorem sumLabels_append (m : SecretMap) (e : Int × LabeledSecret) :
    sumLabels (m ++ [e]) = sumLabels m + e.2.Labels.length := by
  simp [sumLabels]

theorem sumLabels_updateEntry (m : SecretMap) (k : Int) (v : LabeledSecret)
    (n : String) (x : String) (h : lookupEntry m k = some v) :
    sumLabels (updateEntry m k ⟨n, v.Labels ++ [x]⟩) = sumLabels m + 1 := by
  induction m with
  | nil => simp [lookupEntry] at h
  | cons hd tl ih =>
    cases hd with
    | mk k₀ v₀ =>
      by_cases h0 : k₀ = k
      · rw [lookupEntry, if_pos h0] at h
        cases h
        simp [updateEntry, h0, sumLabels]
        omega
      · rw [lookupEntry, if_neg h0] at h
        simp [updateEntry, h0, sumLabels] at ih ⊢
        have := ih h
        omega

theorem sumLabels_reduceStep (m : SecretMap) (r : secretLabelRow) :
    sumLabels (reduceStep m r) = sumLabels m + 1 := by
  cases h : lookupEntry m r.id with
  | none => simp [reduceStep, h, sumLabels_append]
  | some v => simp [reduceStep, h, sumLabels_updateEntry m r.id v _ _ h]

theorem sumLabels_foldl (rows : List secretLabelRow) (acc : SecretMap) :
    sumLabels (rows.foldl reduceStep acc) = sumLabels acc + rows.length := by
  induction rows generalizing acc with
  | nil => simp
  | cons r rest ih =>
    rw [List.foldl_cons, ih, sumLabels_reduceStep]
    simp
    omega

theorem mem_updateEntry (m : SecretMap) (k : Int) (v : LabeledSecret)
    (e : Int × LabeledSecret) (h : e ∈ updateEntry m k v) :
    e ∈ m ∨ e = (k, v) := by
  induction m with
  | nil => simp [updateEntry] at h
  | cons hd tl ih =>
    cases hd with
    | mk k₀ v₀ =>
      by_cases h0 : k₀ = k
      · subst h0
        rw [updateEntry, if_pos rfl] at h
        rcases List.mem_cons.mp h with h1 | h1
        · exact Or.inr h1
        · exact Or.inl (List.mem_cons_of_mem _ h1)
      · rw [updateEntry, if_neg h0] at h
        rcases List.mem_cons.mp h with h1 | h1
        · exact Or.inl (h1 ▸ List.mem_cons_self _ _)
        · rcases ih h1 with h2 | h2
          · exact Or.inl (List.mem_cons_of_mem _ h2)
          · exact Or.inr h2

theorem mem_reduceStep (m : SecretMap) (r : secretLabelRow)
    (e : Int × LabeledSecret) (h : e ∈ reduceStep m r) :
    e ∈ m ∨ e.2.Labels ≠ [] := by
  rw [reduceStep] at h
  cases hl : lookupEntry m r.id with
  | none =>
    rw [hl] at h
    rcases List.mem_append.mp h with h1 | h1
    · exact Or.inl h1
    · right
      have : e = (r.id, ⟨r.name, [r.label]⟩) := by simpa using h1
      simp [this]
  | some v =>
    rw [hl] at h
    rcases mem_updateEntry _ _ _ _ h with h1 | h1
    · exact Or.inl h1
    · right
      simp [h1]

theorem labels_ne_nil_foldl (rows : List secretLabelRow) (acc : SecretMap)
    (hacc : ∀ e ∈ acc, e.2.Labels ≠ []) :
    ∀ e ∈ rows.foldl reduceStep acc, e.2.Labels ≠ [] := by
  induction rows generalizing acc with
  | nil => simpa using hacc
  | cons r rest ih =>
    rw [List.foldl_cons]
    refine ih (reduceStep acc r) ?_
    intro e he
    rcases mem_reduceStep _ _ _ he with h1 | h1
    · exact hacc e h1
    · exact h1

/-! Section: Lemmas about the join -/

/-- Every join row's id is the id of some secret in the joined list. -/
theorem mem_joinRowsAux (labels : List LabelRow) (secrets : List SecretRow)
    (r : secretLabelRow) (h : r ∈ joinRowsAux labels secrets) :
    ∃ s ∈ secrets, r.id = s.id := by
  simp only [joinRowsAux, List.mem_flatMap, List.mem_map, List.mem_filter] at h
  rcases h with ⟨s, hs, l, _, hr⟩
  exact ⟨s, hs, by rw [← hr]⟩

/-- With pairwise-distinct secret ids, the join rows carrying the id of
a given secret are exactly the rows generated from that secret's
labels. -/
theorem joinRowsAux_filter (labels : List LabelRow) (secrets : List SecretRow)
    (s : SecretRow) (hnd : (secrets.map fun t => t.id).Nodup) (hs : s ∈ secrets) :
    (joinRowsAux labels secrets).filter (fun r => decide (r.id = s.id)) =
      (labels.filter fun l => decide (l.secretId = s.id)).map fun l =>
        ⟨s.id, s.name, l.name⟩ := by
  induction secrets with
  | nil => simp at hs
  | cons t rest ih =>
    rw [List.map_cons, List.nodup_cons] at hnd
    rw [joinRowsAux, List.flatMap_cons, ← joinRowsAux, List.filter_append]
    by_cases hid : t.id = s.id
    · have hst : s = t := by
        rcases List.mem_cons.mp hs with h1 | h1
        · exact h1
        · exact absurd (hid ▸ List.mem_map.mpr ⟨s, h1, rfl⟩) hnd.1
      subst hst
      have h1 : ((labels.filter fun l => decide (l.secretId = s.id)).map fun l =>
          (⟨s.id, s.name, l.name⟩ : secretLabelRow)).filter
            (fun r => decide (r.id = s.id)) =
          (labels.filter fun l => decide (l.secretId = s.id)).map fun l =>
            ⟨s.id, s.name, l.name⟩ := by
        rw [List.filter_eq_self]
        intro r hr
        rcases List.mem_map.mp hr with ⟨l, _, hrl⟩
        simp [← hrl]
      have h2 : (joinRowsAux labels rest).filter
          (fun r => decide (r.id = s.id)) = [] := by
        rw [List.filter_eq_nil_iff]
        intro r hr
        rcases mem_joinRowsAux _ _ _ hr with ⟨u, hu, hru⟩
        simp only [decide_eq_true_eq]
        intro hrs
        exact hnd.1 (List.mem_map.mpr ⟨u, hu, by rw [← hru, hrs]⟩)
      rw [h1, h2, List.append_nil]
    · have hs2 : s ∈ rest := by
        rcases List.mem_cons.mp hs with h1 | h1
        · exact absurd (congrArg SecretRow.id h1.symm) hid
        · exact h1
      have h1 : ((labels.filter fun l => decide (l.secretId = t.id)).map fun l =>
          (⟨t.id, t.name, l.name⟩ : secretLabelRow)).filter
            (fun r => decide (r.id = s.id)) = [] := by
        rw [List.filter_eq_nil_iff]
        intro r hr
        rcases List.mem_map.mp hr with ⟨l, _, hrl⟩
        simp [← hrl, hid]
      rw [h1, List.nil_append]
      exact ih hnd.2 hs2

theorem mem_lookupEntry_isSome (m : SecretMap) (e : Int × LabeledSecret)
    (h : e ∈ m) : ∃ v, lookupEntry m e.1 = some v := by
  induction m with
  | nil => simp at h
  | cons hd tl ih =>
    cases hd with
    | mk k₀ v₀ =>
      by_cases h0 : k₀ = e.1
      · exact ⟨v₀, by simp [lookupEntry, h0]⟩
      · rcases List.mem_cons.mp h with h1 | h1
        · exact absurd (by simp [h1]) h0
        · rcases ih h1 with ⟨v, hv⟩
          exact ⟨v, by simp [lookupEntry, h0, hv]⟩

/-! Section: Lemmas about query execution -/

theorem whereGlobOrClause_nil (col : String) : whereGlobOrClause col [] = "" := rfl

theorem secretsByColumnQuery_nil (col : String) :
    secretsByColumnQuery col [] = selectJoinHead ++ "" := rfl

/-- The no-pattern `SecretsByColumn` query parses to the fixed join
with aliases `secret_name` and `label` and no `WHERE` clause. -/
theorem parseJoinQuery_noWhere :
    parseJoinQuery (selectJoinHead ++ "") =
      some (⟨none, some "secret_name", some "label"⟩, none) := by rfl

theorem runJoinQuery_noPatterns (db : DB) (params : List Value) :
    runJoinQuery db (selectJoinHead ++ "") params = some (joinRows db) := by
  rw [runJoinQuery, parseJoinQuery_noWhere]

/-- With zero patterns, `SecretsByColumn` succeeds and returns the
aggregation of every row of the join. -/
theorem SecretsByColumn_noPatterns (db : DB) (col : String) :
    SecretsByColumn db col [] = Except.ok (reduce (joinRows db)) := by
  rw [SecretsByColumn, secretsJoinLabels, secretsByColumnQuery_nil,
    runJoinQuery_noPatterns]

/-! Section: Lemmas about the composed query text -/

theorem data_append (s t : String) : (s ++ t).data = s.data ++ t.data :=
  String.data_append s t

/-- Each disjunct contributes exactly one `?`, so the joined clause
holds one `?` per pattern (provided the trusted column name contains
none). -/
theorem count_qmark_globOr (col : String) (h2 : '?' ∉ col.data)
    (ps : List String) :
    (stringsJoin " OR " (ps.map fun _ => col ++ " GLOB ?")).data.count '?' =
      ps.length := by
  have hc : (col ++ " GLOB ?").data.count '?' = 1 := by
    rw [data_append, List.count_append, List.count_eq_zero.mpr h2]
    rfl
  induction ps with
  | nil => rfl
  | cons x xs ih =>
    cases xs with
    | nil => exact hc
    | cons y ys =>
      show ((col ++ " GLOB ?") ++ " OR " ++
          stringsJoin " OR " ((y :: ys).map fun _ => col ++ " GLOB ?")).data.count '?' =
        (x :: y :: ys).length
      rw [data_append, data_append, List.count_append, List.count_append, hc, ih]
      have hsep : (" OR " : String).data.count '?' = 0 := by decide
      rw [hsep]
      simp only [List.length_cons]
      omega

/-- The glob clause text depends only on the number of patterns. -/
theorem whereGlobOrClause_length_eq (col : String) (ps qs : List String)
    (h : ps.length = qs.length) :
    whereGlobOrClause col ps = whereGlobOrClause col qs := by
  rw [whereGlobOrClause, whereGlobOrClause, List.map_const', List.map_const', h]

/-- The `IN`-list placeholder text depends only on the number of ids. -/
theorem secretsByIDsQuery_length_eq (ids ids' : List Int)
    (h : ids.length = ids'.length) :
    secretsByIDsQuery ids = secretsByIDsQuery ids' := by
  rw [secretsByIDsQuery, secretsByIDsQuery, List.map_const', List.map_const', h]

/-! Section: Lemmas about the scan loop -/

/-- A decode error anywhere in the stream makes the scan loop fail,
whatever has been accumulated so far. -/
theorem scanRowsLoop_error (scans : List (Except String secretLabelRow))
    (h : ∃ e, Except.error e ∈ scans) (acc : List secretLabelRow) :
    ∃ e, scanRowsLoop scans acc = Except.error e := by
  induction scans generalizing acc with
  | nil => simp at h
  | cons s rest ih =>
    cases s with
    | error e => exact ⟨e, rfl⟩
    | ok r =>
      rcases h with ⟨e, he⟩
      rcases List.mem_cons.mp he with h1 | h1
      · exact absurd h1 (by simp)
      · exact ih ⟨e, h1⟩ (acc ++ [r])

/-! Section: Claims -/

set_option maxRecDepth 8192 in
/-- Claim C1 (code bug): `SecretsByLabelsAndName` is supposed to return
exactly the secrets whose name matches the glob AND that carry at least
one matching label, but the composed text
`WHERE label GLOB ? OR label GLOB ?AND secret_name GLOB ?` attaches the
name conjunct only to the last label disjunct (`AND` binds tighter than
`OR`), so secret 1 `mail` — whose name does not match `git*` — is
returned on the strength of its `work` label alone.  The third conjunct
shows the name filter is applied when the matching label pattern is the
last one. -/
theorem secretsByLabelsAndName_returns_name_mismatch :
    SecretsByLabelsAndName dbTwoSecrets "git*" ["work", "home"] =
      Except.ok [(1, ⟨"mail", ["work"]⟩), (2, ⟨"github", ["home"]⟩)] ∧
    globMatch "git*" "mail" = false ∧
    SecretsByLabelsAndName dbTwoSecrets "git*" ["home"] =
      Except.ok [(2, ⟨"github", ["home"]⟩)] := by decide

/-- Claim C2, counterexample: with zero patterns `SecretsByColumn` does
NOT return every secret in the secrets table — the inner join drops the
label-less secret 1, so the returned mapping is empty although the
secrets table is not. -/
theorem secretsByColumn_noPatterns_omits_unlabeled :
    SecretsByColumn dbNoLabels "label" [] = Except.ok [] ∧
    dbNoLabels.secrets = [⟨1, "a", "p"⟩] := by decide

/-- Claim C2 (amended): with zero patterns `SecretsByColumn` succeeds
and returns every secret that has at least one label, mapped to its
name and the full list of its labels; secrets with no labels are absent
from the mapping. -/
theorem secretsByColumn_noPatterns_labeled_characterization
    (db : DB) (col : String) (s : SecretRow)
    (hnd : (db.secrets.map fun t => t.id).Nodup) (hs : s ∈ db.secrets) :
    SecretsByColumn db col [] = Except.ok (reduce (joinRows db)) ∧
    lookupEntry (reduce (joinRows db)) s.id =
      (if (db.labels.filter fun l => decide (l.secretId = s.id)) = [] then none
       else some ⟨s.name,
         (db.labels.filter fun l => decide (l.secretId = s.id)).map
           fun l => l.name⟩) := by
  refine ⟨SecretsByColumn_noPatterns db col, ?_⟩
  have hfilter := joinRowsAux_filter db.labels db.secrets s hnd hs
  rw [lookupEntry_reduce]
  by_cases hnil : (db.labels.filter fun l => decide (l.secretId = s.id)) = []
  · rw [if_pos hnil]
    rw [hnil] at hfilter
    simp only [List.map_nil] at hfilter
    have hfind : (joinRows db).find? (fun r => decide (r.id = s.id)) = none := by
      rw [List.find?_eq_none]
      intro r hr hpr
      have hmem : r ∈ (joinRows db).filter (fun r => decide (r.id = s.id)) :=
        List.mem_filter.mpr ⟨hr, hpr⟩
      rw [joinRows, hfilter] at hmem
      simp at hmem
    rw [hfind]
  · rw [if_neg hnil]
    obtain ⟨l₀, hl₀⟩ := List.exists_mem_of_ne_nil _ hnil
    have hrow : (⟨s.id, s.name, l₀.name⟩ : secretLabelRow) ∈
        (joinRows db).filter (fun r => decide (r.id = s.id)) := by
      rw [joinRows, hfilter]
      exact List.mem_map.mpr ⟨l₀, hl₀, rfl⟩
    have hsome : ((joinRows db).find? fun r => decide (r.id = s.id)).isSome := by
      refine List.find?_isSome.mpr ?_
      exact ⟨_, (List.mem_filter.mp hrow).1, (List.mem_filter.mp hrow).2⟩
    obtain ⟨r, hr⟩ := Option.isSome_iff_exists.mp hsome
    rw [hr]
    have hmem2 := List.mem_of_find?_eq_some hr
    have hp := List.find?_some hr
    have hrfilter : r ∈ (joinRows db).filter fun r => decide (r.id = s.id) :=
      List.mem_filter.mpr ⟨hmem2, hp⟩
    rw [joinRows, hfilter] at hrfilter
    rcases List.mem_map.mp hrfilter with ⟨l, _, hrl⟩
    have hname : r.name = s.name := by rw [← hrl]
    have hlabels : labelsOf (joinRows db) s.id =
        (db.labels.filter fun l => decide (l.secretId = s.id)).map
          fun l => l.name := by
      rw [labelsOf, joinRows, hfilter, List.map_map]
      rfl
    simp [hname, hlabels]

/-- Witness for the amended claim C2 at a concrete populated state. -/
theorem secretsByColumn_noPatterns_labeled_characterization_witness :
    ((dbThreeSecrets.secrets.map fun t => t.id).Nodup ∧
      (⟨1, "A", "x"⟩ : SecretRow) ∈ dbThreeSecrets.secrets) ∧
    (SecretsByColumn dbThreeSecrets "label" [] =
        Except.ok (reduce (joinRows dbThreeSecrets)) ∧
      lookupEntry (reduce (joinRows dbThreeSecrets)) (1 : Int) =
        (if (dbThreeSecrets.labels.filter
              fun l => decide (l.secretId = (1 : Int))) = [] then none
         else some ⟨"A",
           (dbThreeSecrets.labels.filter
              fun l => decide (l.secretId = (1 : Int))).map fun l => l.name⟩)) :=
  ⟨⟨by decide, by decide⟩,
    secretsByColumn_noPatterns_labeled_characterization dbThreeSecrets "label"
      ⟨1, "A", "x"⟩ (by decide) (by decide)⟩

/-- Claim C3: the empty id list and the empty label list short-circuit
with their sentinel errors, for every database state — the result does
not depend on the state at all, so no query is composed or executed,
and the error result carries no mapping. -/
theorem empty_inputs_shortcircuit_sentinels (db : DB) (name : String) :
    SecretsByIDs db [] = Except.error StoreErr.ErrNoIDsProvided ∧
    SecretsByLabelsAndName db name [] = Except.error StoreErr.ErrNoLabelsProvided :=
  ⟨rfl, rfl⟩

/-- Claim C4: `reduce` maps each id to the name of the first row
carrying it and, in arrival order and without deduplication, the labels
of all rows carrying it; the empty row sequence yields the empty
mapping. -/
theorem reduce_first_name_and_ordered_labels (rows : List secretLabelRow)
    (k : Int) :
    reduce ([] : List secretLabelRow) = [] ∧
    lookupEntry (reduce rows) k =
      match rows.find? (fun r => decide (r.id = k)) with
      | none => none
      | some r => some ⟨r.name, labelsOf rows k⟩ :=
  ⟨rfl, lookupEntry_reduce rows k⟩

/-- Claim C5: for a non-empty pattern list the predicate builder emits
`WHERE col GLOB ? OR col GLOB ? ...` with exactly one `?` per pattern,
the search operations bind the patterns in the given order (for
`SecretsByLabelsAndName`, the first `n` parameters are the `n` label
patterns), and the empty pattern list yields the empty clause. -/
theorem whereGlobOrClause_shape_count_binding (col : String)
    (patterns : List String) (name : String)
    (h1 : patterns ≠ []) (h2 : '?' ∉ col.data) :
    whereGlobOrClause col patterns =
      "WHERE " ++ stringsJoin " OR " (patterns.map fun _ => col ++ " GLOB ?") ∧
    (whereGlobOrClause col patterns).data.count '?' = patterns.length ∧
    whereGlobOrClause col [] = "" ∧
    toAnySliceStr patterns = patterns.map Value.str ∧
    (toAnySliceStr patterns ++ [Value.str name]).take patterns.length =
      patterns.map Value.str := by
  have hlen : ¬patterns.length = 0 := by
    simpa [List.length_eq_zero] using h1
  have hcl : whereGlobOrClause col patterns =
      "WHERE " ++ stringsJoin " OR " (patterns.map fun _ => col ++ " GLOB ?") := by
    rw [whereGlobOrClause, if_neg hlen]
  refine ⟨hcl, ?_, rfl, rfl, ?_⟩
  · rw [hcl, data_append, List.count_append, count_qmark_globOr col h2]
    have hw : ("WHERE " : String).data.count '?' = 0 := by decide
    rw [hw]
    omega
  · have ht := List.take_left (patterns.map Value.str) [Value.str name]
    rw [List.length_map] at ht
    exact ht

/-- Witness for claim C5 at a concrete column and pattern list. -/
theorem whereGlobOrClause_shape_count_binding_witness :
    ((["a", "b"] : List String) ≠ [] ∧ '?' ∉ ("label" : String).data) ∧
    (whereGlobOrClause "label" ["a", "b"] =
        "WHERE " ++ stringsJoin " OR "
          ((["a", "b"] : List String).map fun _ => "label" ++ " GLOB ?") ∧
      (whereGlobOrClause "label" ["a", "b"]).data.count '?' =
        (["a", "b"] : List String).length ∧
      whereGlobOrClause "label" [] = "" ∧
      toAnySliceStr ["a", "b"] = (["a", "b"] : List String).map Value.str ∧
      (toAnySliceStr ["a", "b"] ++ [Value.str "n"]).take
          (["a", "b"] : List String).length =
        (["a", "b"] : List String).map Value.str) :=
  ⟨⟨by decide, by decide⟩,
    whereGlobOrClause_shape_count_binding "label" ["a", "b"] "n"
      (by decide) (by decide)⟩

/-- Claim C6: inserting a master key into a populated store is a silent
no-op — the whole state is unchanged and the stored key survives;
concretely, inserting `k1` then `k2` leaves `QueryMasterKey` returning
`k1` (see the witness). -/
theorem insertMasterKey_idempotent_on_populated (db : DB) (k k2 : String)
    (h : db.masterKey = some k) :
    InsertMasterKey db k2 = db ∧
    QueryMasterKey (InsertMasterKey db k2) = Except.ok k := by
  have h1 : InsertMasterKey db k2 = db := by rw [InsertMasterKey, h]
  refine ⟨h1, ?_⟩
  rw [h1, QueryMasterKey, h]

/-- Witness for claim C6: the concrete `k1`-then-`k2` scenario. -/
theorem insertMasterKey_idempotent_on_populated_witness :
    (InsertMasterKey emptyDB "k1").masterKey = some "k1" ∧
    InsertMasterKey (InsertMasterKey emptyDB "k1") "k2" =
      InsertMasterKey emptyDB "k1" ∧
    QueryMasterKey (InsertMasterKey (InsertMasterKey emptyDB "k1") "k2") =
      Except.ok "k1" :=
  ⟨by decide,
    (insertMasterKey_idempotent_on_populated (InsertMasterKey emptyDB "k1")
      "k1" "k2" (by decide)).1,
    (insertMasterKey_idempotent_on_populated (InsertMasterKey emptyDB "k1")
      "k1" "k2" (by decide)).2⟩

/-- Claim C7: if any row of the stream fails to decode, or the
iteration itself ends in error, the scan loop of `secretsJoinLabels`
returns an error — the error constructor carries no mapping, so no
partially aggregated mapping is ever returned. -/
theorem scan_failure_yields_error_never_partial
    (scans : List (Except String secretLabelRow)) (iterErr : Option String)
    (h : (∃ e, Except.error e ∈ scans) ∨ iterErr ≠ none) :
    ∃ e, secretsJoinLabelsScan scans iterErr = Except.error e := by
  cases hsl : scanRowsLoop scans [] with
  | error e => exact ⟨e, by rw [secretsJoinLabelsScan, hsl]⟩
  | ok rows =>
    rcases h with h | h
    · rcases scanRowsLoop_error scans h [] with ⟨e, he⟩
      rw [hsl] at he
      exact absurd he (by simp)
    · rcases Option.ne_none_iff_exists.mp h with ⟨e, he⟩
      exact ⟨e, by rw [secretsJoinLabelsScan, hsl, ← he]⟩

/-- Witness for claim C7: one failing decode. -/
theorem scan_failure_yields_error_never_partial_witness :
    ∃ e, secretsJoinLabelsScan [Except.error "decode failure"] none =
      Except.error e :=
  scan_failure_yields_error_never_partial [Except.error "decode failure"] none
    (Or.inl ⟨"decode failure", by simp⟩)

/-- Claim C8: the composed query text is a function of the input list
lengths only — two pattern (or id, or label) lists of equal length
yield identical query strings — and the user-supplied strings appear
only in the bound-parameter sequences, which are the inputs in order. -/
theorem query_text_independent_of_bound_values (col : String)
    (ps qs ls ls2 : List String) (ids ids2 : List Int)
    (h1 : ps.length = qs.length) (h2 : ids.length = ids2.length)
    (h3 : ls.length = ls2.length) :
    secretsByColumnQuery col ps = secretsByColumnQuery col qs ∧
    secretsByIDsQuery ids = secretsByIDsQuery ids2 ∧
    secretsByLabelsAndNameQuery ls = secretsByLabelsAndNameQuery ls2 ∧
    toAnySliceStr ps = ps.map Value.str ∧
    toAnySliceInt ids = ids.map Value.int := by
  refine ⟨?_, secretsByIDsQuery_length_eq ids ids2 h2, ?_, rfl, rfl⟩
  · rw [secretsByColumnQuery, secretsByColumnQuery,
      whereGlobOrClause_length_eq col ps qs h1]
  · rw [secretsByLabelsAndNameQuery, secretsByLabelsAndNameQuery,
      whereGlobOrClause_length_eq "label" ls ls2 h3]

/-- Witness for claim C8 at concrete value lists of equal lengths. -/
theorem query_text_independent_of_bound_values_witness :
    ((["a"] : List String).length = (["b"] : List String).length ∧
      ([1] : List Int).length = ([2] : List Int).length ∧
      (["x"] : List String).length = (["y"] : List String).length) ∧
    (secretsByColumnQuery "label" ["a"] = secretsByColumnQuery "label" ["b"] ∧
      secretsByIDsQuery [1] = secretsByIDsQuery [2] ∧
      secretsByLabelsAndNameQuery ["x"] = secretsByLabelsAndNameQuery ["y"] ∧
      toAnySliceStr ["a"] = (["a"] : List String).map Value.str ∧
      toAnySliceInt [1] = ([1] : List Int).map Value.int) :=
  ⟨⟨rfl, rfl, rfl⟩,
    query_text_independent_of_bound_values "label" ["a"] ["b"] ["x"] ["y"]
      [1] [2] rfl rfl rfl⟩

/-- Claim C9: `reduce` conserves rows — the label-list lengths over the
mapping sum to the number of input rows, every label list is non-empty,
and an id appears in the mapping only if some input row carried it. -/
theorem reduce_conserves_rows (rows : List secretLabelRow) :
    sumLabels (reduce rows) = rows.length ∧
    (∀ e ∈ reduce rows, e.2.Labels ≠ []) ∧
    (∀ e ∈ reduce rows, ∃ r ∈ rows, r.id = e.1) := by
  refine ⟨?_, ?_, ?_⟩
  · have h := sumLabels_foldl rows []
    simpa [reduce, sumLabels] using h
  · exact labels_ne_nil_foldl rows [] (by simp)
  · intro e he
    rcases mem_lookupEntry_isSome (reduce rows) e he with ⟨v, hv⟩
    rw [lookupEntry_reduce] at hv
    cases hfind : rows.find? (fun r => decide (r.id = e.1)) with
    | none => rw [hfind] at hv; simp at hv
    | some r =>
      have hm := List.mem_of_find?_eq_some hfind
      have hp := List.find?_some hfind
      exact ⟨r, hm, by simpa using hp⟩

/-- Witness for claim C9 at the spec's aggregation-ordering rows. -/
theorem reduce_conserves_rows_witness :
    sumLabels (reduce rowsExample) = rowsExample.length ∧
    (1, (⟨"a", ["L1", "L2"]⟩ : LabeledSecret)).2.Labels ≠ [] ∧
    (∃ r ∈ rowsExample, r.id = (1, (⟨"a", ["L1", "L2"]⟩ : LabeledSecret)).1) :=
  ⟨(reduce_conserves_rows rowsExample).1,
    (reduce_conserves_rows rowsExample).2.1
      (1, (⟨"a", ["L1", "L2"]⟩ : LabeledSecret)) (by decide),
    (reduce_conserves_rows rowsExample).2.2
      (1, (⟨"a", ["L1", "L2"]⟩ : LabeledSecret)) (by decide)⟩

/-- Claim C10: `WithTx` builds a fresh store bound to the transaction
and leaves the receiver untouched — after the call the receiver is
unchanged and still holds its original handle, while only the returned
store holds the transaction. -/
theorem withTx_returns_fresh_store_preserves_receiver (s : Store) (t : Nat) :
    (Store.WithTx s t).1 = s ∧ (Store.WithTx s t).1.db = s.db ∧
    (Store.WithTx s t).2.db = Handle.tx t :=
  ⟨rfl, rfl, rfl⟩

end store

